import Mathlib

/-!
Verification of the disaster-resilience data pipeline
(`build_unified_dataset.py` and `run_diagnostics.py`).

The pipeline's pandas dataframes are modelled as lists of rows; a missing
(NaN) cell is `none : Option ℚ`, a numeric cell is `some q`.  Machine floats
are modelled as exact rationals.  Python strings are Lean `String`s; since
`String.toUpper`/`String.trim` do not reduce well in the kernel, kernel-friendly
equivalents over the character list are defined here and used throughout.
-/

/-- ASCII uppercase of a string, character by character (models `str.upper()`
on the ASCII fragment; the only non-ASCII letters appearing in the pipeline's
string tables are already uppercase). -/
def strUpper (s : String) : String := ⟨s.data.map Char.toUpper⟩

/-- Characters of `l` with leading and trailing whitespace removed. -/
def trimChars (l : List Char) : List Char :=
  ((l.dropWhile Char.isWhitespace).reverse.dropWhile Char.isWhitespace).reverse

/-- Whitespace-trimming of a string (models `str.strip()`). -/
def strTrim (s : String) : String := ⟨trimChars s.data⟩

/-- The apostrophe character, by code point. -/
def apoChar : Char := Char.ofNat 39

/-- A one-character string holding an apostrophe (several country aliases in
the source contain one). -/
def apoStr : String := String.singleton apoChar

-- ============================================================================
-- Country-code resolver (`standardize_iso3`, `country_name_to_iso3`)
-- ============================================================================

/-- The sentinel placeholder codes replaced by null in `standardize_iso3`
(`invalid_values` in the source). -/
def invalidValues : List String := ["", "NAN", "NONE", "-1", "   ", "NA", "NULL", "..."]

/-- Cell-level model of `standardize_iso3`: strip whitespace, uppercase, and
map any sentinel placeholder to null.  (The source applies this columnwise via
pandas; the transformation is per cell.) -/
def standardizeIso3 (s : String) : Option String :=
  let u := strUpper (strTrim s)
  if u ∈ invalidValues then none else some u

/-- Alias for "CÔTE D'IVOIRE" (built with `apoStr` to keep the literal plain). -/
def coteDIvoire : String := "CÔTE D" ++ apoStr ++ "IVOIRE"

/-- Alias for "KOREA, DEM. PEOPLE'S REP.". -/
def koreaDPR : String := "KOREA, DEM. PEOPLE" ++ apoStr ++ "S REP."

/-- The static alias table `manual_mappings` of `country_name_to_iso3`,
copied from the source. -/
def manualMappings : List (String × String) :=
  [("BOLIVIA", "BOL"), ("BOLIVIA (PLURINATIONAL STATE OF)", "BOL"),
   ("VENEZUELA", "VEN"), ("VENEZUELA (BOLIVARIAN REPUBLIC OF)", "VEN"),
   ("IRAN", "IRN"), ("IRAN (ISLAMIC REPUBLIC OF)", "IRN"),
   ("TANZANIA", "TZA"), ("UNITED REPUBLIC OF TANZANIA", "TZA"),
   ("RUSSIA", "RUS"), ("RUSSIAN FEDERATION", "RUS"),
   ("KOREA, REPUBLIC OF", "KOR"), ("SOUTH KOREA", "KOR"),
   (koreaDPR, "PRK"), ("NORTH KOREA", "PRK"),
   (coteDIvoire, "CIV"), ("IVORY COAST", "CIV"),
   ("DEMOCRATIC REPUBLIC OF THE CONGO", "COD"), ("DR CONGO", "COD"), ("DRC", "COD"),
   ("REPUBLIC OF THE CONGO", "COG"), ("CONGO", "COG"),
   ("UNITED STATES", "USA"), ("UNITED STATES OF AMERICA", "USA"),
   ("UNITED KINGDOM", "GBR"), ("UK", "GBR"),
   ("VIET NAM", "VNM"), ("VIETNAM", "VNM"),
   ("LAO PDR", "LAO"), ("LAOS", "LAO"),
   ("SYRIA", "SYR"), ("SYRIAN ARAB REPUBLIC", "SYR"),
   ("CZECHIA", "CZE"), ("CZECH REPUBLIC", "CZE"),
   ("SLOVAKIA", "SVK"), ("SLOVAK REPUBLIC", "SVK"),
   ("MOLDOVA", "MDA"), ("REPUBLIC OF MOLDOVA", "MDA"),
   ("HONG KONG", "HKG"), ("HONG KONG SAR", "HKG"),
   ("MACAU", "MAC"), ("MACAO", "MAC"),
   ("TAIWAN", "TWN"), ("CHINESE TAIPEI", "TWN"),
   ("PALESTINE", "PSE"), ("WEST BANK AND GAZA", "PSE"),
   ("ESWATINI", "SWZ"), ("SWAZILAND", "SWZ"),
   ("MYANMAR", "MMR"), ("BURMA", "MMR"),
   ("CABO VERDE", "CPV"), ("CAPE VERDE", "CPV"),
   ("TÜRKIYE", "TUR"), ("TURKEY", "TUR")]

/-- The explicitly enumerated territorial overrides of the alias table
(Hong Kong, Macau, Taiwan, Palestine). -/
def territorialCodes : List String := ["HKG", "MAC", "TWN", "PSE"]

/-- Model of `country_name_to_iso3`.  A null or empty input resolves to null;
the uppercased, trimmed name is looked up in the alias table first; otherwise
the external `pycountry` registry (exact match, then fuzzy search) decides, and
that external step is abstracted as the `registry` argument (it returns null
when both lookups fail). -/
def countryNameToIso3 (registry : String → Option String) (name : Option String) :
    Option String :=
  match name with
  | none => none
  | some s =>
    if s = "" then none
    else
      match manualMappings.lookup (strUpper (strTrim s)) with
      | some c => some c
      | none => registry s

-- ============================================================================
-- Metadata enricher: income groups (`pd.cut` on GDP per capita)
-- ============================================================================

/-- Model of the `income_group` assignment: `pd.cut` with bins
`[0, 1085, 4255, 13205, inf]` and right-closed intervals, so a value must be
strictly greater than 0 to fall in the lowest bracket, and a null GDP yields a
null bracket. -/
def incomeGroup (g : Option ℚ) : Option String :=
  match g with
  | none => none
  | some v =>
    if v ≤ 0 then none
    else if v ≤ 1085 then some "Low"
    else if v ≤ 4255 then some "Lower-Middle"
    else if v ≤ 13205 then some "Upper-Middle"
    else some "High"

/-- C7: the resolver sends "UNITED STATES" to "USA" and "CÔTE D'IVOIRE" to
"CIV" through the alias table, sends the empty and null inputs to null without
consulting the registry, and every normalizer maps the fixed sentinel set
("", "NAN", "NONE", "-1", "NA", "NULL", "...", whitespace-only) to null via
`standardize_iso3` before any resolution takes place. -/
theorem resolver_aliases_and_sentinels (registry : String → Option String) :
    countryNameToIso3 registry (some "UNITED STATES") = some "USA" ∧
    countryNameToIso3 registry (some coteDIvoire) = some "CIV" ∧
    countryNameToIso3 registry (some "") = none ∧
    countryNameToIso3 registry none = none ∧
    (∀ s : String, strUpper (strTrim s) ∈ invalidValues → standardizeIso3 s = none) := by
  refine ⟨rfl, rfl, rfl, rfl, ?_⟩
  intro s hs
  simp [standardizeIso3, hs]

/-- Witness for C7 at concrete inputs: the sentinel "na" is nulled and
"UNITED STATES" resolves regardless of the registry. -/
theorem resolver_aliases_and_sentinels_w :
    standardizeIso3 "na" = none ∧
    countryNameToIso3 (fun _ => none) (some "UNITED STATES") = some "USA" :=
  ⟨(resolver_aliases_and_sentinels (fun _ => none)).2.2.2.2 "na" (by decide),
   (resolver_aliases_and_sentinels (fun _ => none)).1⟩

/-- C9 counterexample: a row with consolidated GDP per capita exactly 0 gets a
null income group, not "Low", because `pd.cut`'s lowest interval (0, 1085] is
open at 0; so "at most 1085 gives Low" fails at 0. -/
theorem income_group_zero_not_low :
    incomeGroup (some 0) = none ∧ incomeGroup (some 0) ≠ some "Low" := by
  constructor <;> decide

/-- C9 amended: for strictly positive GDP per capita the fixed thresholds
apply as stated (≤ 1085 Low, ≤ 4255 Lower-Middle, ≤ 13205 Upper-Middle, else
High), per row; a null or non-positive GDP yields a null bracket. -/
theorem income_group_thresholds (v : ℚ) (hv : 0 < v) :
    incomeGroup (some v) =
      some (if v ≤ 1085 then "Low" else if v ≤ 4255 then "Lower-Middle"
            else if v ≤ 13205 then "Upper-Middle" else "High") ∧
    incomeGroup none = none ∧ incomeGroup (some 0) = none := by
  refine ⟨?_, rfl, by decide⟩
  show (if v ≤ 0 then none
        else if v ≤ 1085 then some "Low"
        else if v ≤ 4255 then some "Lower-Middle"
        else if v ≤ 13205 then some "Upper-Middle"
        else some "High") = _
  rw [if_neg (not_le.mpr hv)]
  split_ifs <;> rfl

/-- Witness for C9 at GDP per capita 500 (Low bracket). -/
theorem income_group_thresholds_w : incomeGroup (some 500) = some "Low" := by
  have h := (income_group_thresholds 500 (by norm_num)).1
  norm_num at h
  exact h

-- ============================================================================
-- Index calculator helpers (`safe_divide`, `normalize_0_1`)
-- ============================================================================

/-- Model of `safe_divide`: null when the denominator is 0 or null; a null
numerator propagates through the division as null. -/
def safe_divide (n d : Option ℚ) : Option ℚ :=
  match d with
  | none => none
  | some dv => if dv = 0 then none else n.map (· / dv)

/-- Minimum of a list of rationals (0 on the empty list; the pipeline never
takes the minimum of an empty column because the NaN-skipping caller checks
emptiness first). -/
def listMin (l : List ℚ) : ℚ :=
  match l with
  | [] => 0
  | v :: vs => vs.foldl min v

/-- Maximum of a list of rationals, analogous to `listMin`. -/
def listMax (l : List ℚ) : ℚ :=
  match l with
  | [] => 0
  | v :: vs => vs.foldl max v

/-- Model of `normalize_0_1` on a column: pandas `min`/`max` skip nulls; when
every value is null both are NaN and the `max == min` test is false, so every
output is null; when all non-null values are equal the function returns 0.5 at
every index of the column, nulls included; otherwise each value is rescaled by
the non-null minimum and maximum (nulls propagate), and the optional `invert`
flag replaces x by 1 - x afterwards. -/
def normalize_0_1 (l : List (Option ℚ)) (invert : Bool) : List (Option ℚ) :=
  if l.filterMap id = [] then l.map (fun _ => none)
  else if listMax (l.filterMap id) = listMin (l.filterMap id) then
    l.map (fun _ => some (1/2))
  else if invert then
    l.map (Option.map (fun x =>
      1 - (x - listMin (l.filterMap id)) / (listMax (l.filterMap id) - listMin (l.filterMap id))))
  else
    l.map (Option.map (fun x =>
      (x - listMin (l.filterMap id)) / (listMax (l.filterMap id) - listMin (l.filterMap id))))

/-- A normalized index column as the pipeline materializes it:
`normalize_0_1(column) * 100`. -/
def norm100 (l : List (Option ℚ)) : List (Option ℚ) :=
  (normalize_0_1 l false).map (Option.map (· * 100))

-- ============================================================================
-- Index calculator: row-level formulas for DII, RRS, CRI
-- ============================================================================

/-- Row-level model of the DII computation: `fatalities_per_million` and
`affected_pct` are `safe_divide`s by population of the zero-filled consolidated
deaths and affected counts; the numerator zero-fills both rates, the division
is a `safe_divide` by the best GDP per capita, and the result is scaled by the
severity weight (GDACS mean severity, defaulting to 1).  The affected weight
constant is `DII_AFFECTED_WEIGHT = 4`. -/
def dii_row (deaths affected population gdp severity : Option ℚ) : Option ℚ :=
  let fpm := safe_divide (some (deaths.getD 0 * 1000000)) population
  let apct := safe_divide (some (affected.getD 0 * 100)) population
  (safe_divide (some (fpm.getD 0 + 4 * apct.getD 0)) gdp).map (· * severity.getD 1)

/-- Row-level model of the RRS computation.  The three normalized inputs
(year-over-year GDP growth change, HDI, governance composite) are filled with
the neutral midpoint 0.5 when null; the recovery factor is
`1 + log1p(total_disaster_events)/3` with the event count zero-filled, and
`lg` abstracts the transcendental `np.log1p` (the theorems only use
`log1p 0 = 0`). -/
def rrs_row (lg : ℚ → ℚ) (gdpChangeNorm hdiNorm govNorm events : Option ℚ) : Option ℚ :=
  let recovery := 1 + lg (events.getD 0) / 3
  safe_divide (some (gdpChangeNorm.getD (1/2) + hdiNorm.getD (1/2) + govNorm.getD (1/2)))
    (some recovery)

/-- Row-level model of the CRI computation: adaptive capacity prefers ND-GAIN
readiness and falls back to the inverted INFORM coping capacity
`(10 - coping.fillna(5)) / 10`; exposure is the INFORM hazard score (its
whole-column-absent fallback branch is not taken in the full 13-source run);
vulnerability prefers ND-GAIN vulnerability with fallback to INFORM
vulnerability divided by 10; the denominator is
`exposure.fillna(5)/10 + vulnerability.fillna(0.5) + 0.001`. -/
def cri_row (readiness coping hazard ndvuln invuln : Option ℚ) : Option ℚ :=
  let adaptive : ℚ := readiness.getD ((10 - coping.getD 5) / 10)
  let vuln : Option ℚ :=
    match ndvuln with
    | some v => some v
    | none => invuln.map (· / 10)
  safe_divide (some adaptive) (some (hazard.getD 5 / 10 + vuln.getD (1/2) + 1/1000))

/-- C2: on the spec scenario row (deaths 10, population 1e6, affected 50000,
best GDP per capita 5000, severity weight 2) the DII formula produces exactly
((10 + 4*5) / 5000) * 2 = 0.012. -/
theorem dii_scenario_value :
    dii_row (some 10) (some 50000) (some 1000000) (some 5000) (some 2) = some 0.012 := by
  norm_num [dii_row, safe_divide]

/-- C1 counterexample: on a row whose population is null but whose best GDP
per capita is 5000, the code zero-fills the null fatality and affected rates
and produces the numeric DII 0, not null; so "DII is null wherever population
is null" fails. -/
theorem dii_not_null_when_population_null :
    dii_row (some 10) (some 5) none (some 5000) none ≠ none ∧
    dii_row (some 10) (some 5) none (some 5000) none = some 0 := by
  have h : dii_row (some 10) (some 5) none (some 5000) none = some 0 := by
    norm_num [dii_row, safe_divide]
  exact ⟨by rw [h]; exact Option.some_ne_none 0, h⟩

/-- C1 amended: DII is null exactly on the rows whose best GDP per capita is
null or zero (a null population only zeroes the numerator), and on an all-null
input row DII is null while RRS and CRI still take the numeric neutral-default
values 3/2 and 500/1001. -/
theorem index_null_propagation (lg : ℚ → ℚ) (hlg : lg 0 = 0) :
    (∀ deaths affected population severity,
      dii_row deaths affected population none severity = none) ∧
    (∀ deaths affected population severity,
      dii_row deaths affected population (some 0) severity = none) ∧
    dii_row (some 10) (some 5) none (some 5000) none = some 0 ∧
    rrs_row lg none none none none = some (3/2) ∧
    cri_row none none none none none = some (500/1001) := by
  refine ⟨?_, ?_, ?_, ?_, ?_⟩
  · intro deaths affected population severity
    simp [dii_row, safe_divide]
  · intro deaths affected population severity
    simp [dii_row, safe_divide]
  · norm_num [dii_row, safe_divide]
  · norm_num [rrs_row, safe_divide, hlg]
  · norm_num [cri_row, safe_divide]

/-- Witness for C1 amended, instantiated at a log implementation with
log1p 0 = 0 and at concrete rows. -/
theorem index_null_propagation_w :
    dii_row none none none none none = none ∧
    dii_row none none none (some 0) none = none ∧
    rrs_row (fun _ => 0) none none none none = some (3/2) ∧
    cri_row none none none none none = some (500/1001) :=
  ⟨(index_null_propagation (fun _ => 0) rfl).1 none none none none,
   (index_null_propagation (fun _ => 0) rfl).2.1 none none none none,
   (index_null_propagation (fun _ => 0) rfl).2.2.2.1,
   (index_null_propagation (fun _ => 0) rfl).2.2.2.2⟩

-- ============================================================================
-- Source normalizer: EM-DAT event-record aggregation
-- ============================================================================

/-- One EM-DAT disaster event record after column mapping: country code,
start year, and the (possibly missing) total deaths figure. -/
structure DisasterRecord where
  iso3 : String
  year : Int
  deaths : Option ℚ

/-- Aggregated deaths for one (iso3, year) group: the source zero-fills the
deaths column (`fillna(0)`) and then sums within the group. -/
def emdatDeathsSum (rows : List DisasterRecord) (iso : String) (yr : Int) : ℚ :=
  (((rows.filter (fun r => r.iso3 == iso && r.year == yr)).map
    (fun r => r.deaths.getD 0)).sum)

/-- Event count for one (iso3, year) group: `groupby(...).size()`, so every
record counts whether or not its numeric fields are missing. -/
def emdatEventCount (rows : List DisasterRecord) (iso : String) (yr : Int) : Nat :=
  (rows.filter (fun r => r.iso3 == iso && r.year == yr)).length

/-- C8: three event records for ("CCC", 2015) with deaths 5, null, 10
aggregate to deaths = 15 and event_count = 3 — the null death toll is summed
as zero but the event is still counted. -/
theorem emdat_aggregation_scenario :
    emdatDeathsSum [⟨"CCC", 2015, some 5⟩, ⟨"CCC", 2015, none⟩, ⟨"CCC", 2015, some 10⟩]
      "CCC" 2015 = 15 ∧
    emdatEventCount [⟨"CCC", 2015, some 5⟩, ⟨"CCC", 2015, none⟩, ⟨"CCC", 2015, some 10⟩]
      "CCC" 2015 = 3 := by
  constructor
  · norm_num [emdatDeathsSum, List.filter]
  · decide

-- ============================================================================
-- Pipeline completion under source failure (output files written)
-- ============================================================================

/-- Data columns contributed by each merged source in the 13-source pipeline
(the ND-GAIN spine aside), as named in the source.  A failed normalizer
substitutes an empty keyed table, which the merge loop skips, so none of its
columns appear. -/
def sourceCols : List (String × List String) :=
  [("ntl", ["ntl_radiance", "ntl_growth"]),
   ("emdat", ["emdat_deaths", "emdat_affected", "emdat_damage_usd", "emdat_event_count"]),
   ("gdacs", ["gdacs_disaster_count", "gdacs_red_alerts", "gdacs_orange_alerts",
              "gdacs_avg_alert_score", "gdacs_severity_weight"]),
   ("weo", ["gdp_growth_imf", "gdp_per_capita_imf", "inflation_rate",
            "unemployment_rate", "population_imf", "govt_revenue_pct_gdp",
            "govt_debt_pct_gdp"]),
   ("wdi", ["gdp_growth", "gdp_per_capita", "gdp_per_capita_ppp", "gini_index",
            "poverty_rate", "population", "urban_population_pct", "internet_users_pct"]),
   ("hdr", ["hdi", "life_expectancy", "expected_years_schooling",
            "mean_years_schooling", "gni_per_capita"]),
   ("wgi", ["wgi_voice_accountability", "wgi_political_stability",
            "wgi_gov_effectiveness", "wgi_regulatory_quality", "wgi_rule_of_law",
            "wgi_control_corruption", "wgi_composite"]),
   ("inform", ["inform_risk", "inform_hazard", "inform_vulnerability",
               "inform_coping_capacity"]),
   ("fts", ["humanitarian_funding_usd"]),
   ("desinventar", ["desinventar_events", "desinventar_deaths", "desinventar_affected",
                    "desinventar_houses_destroyed", "desinventar_houses_damaged"]),
   ("barrolee", ["years_of_schooling", "years_primary_schooling"]),
   ("gini", ["gini_wid"])]

/-- Columns of the merged table when the normalizers named in `failed`
substituted empty tables: the key columns, the spine columns unless ND-GAIN
failed, and each surviving source's columns. -/
def mergedColumns (failed : List String) : List String :=
  ["iso3", "year"] ++
  (if "ndgain" ∈ failed then []
   else ["ndgain_score", "ndgain_readiness", "ndgain_vulnerability"]) ++
  (sourceCols.filter (fun p => p.1 ∉ failed)).flatMap Prod.snd

/-- Columns after consolidation and index calculation, following the source's
per-column existence guards: each consolidated column appears when at least one
of its sources did; the DII block is guarded by the presence of `population`;
the RRS and CRI blocks are unconditional; `income_group` is guarded by the
presence of a GDP-per-capita column. -/
def derivedColumns (failed : List String) : List String :=
  let cols := mergedColumns failed
  cols ++
  (if "emdat_deaths" ∈ cols ∨ "desinventar_deaths" ∈ cols
   then ["total_disaster_deaths"] else []) ++
  (if "emdat_affected" ∈ cols ∨ "desinventar_affected" ∈ cols
   then ["total_disaster_affected"] else []) ++
  (if "emdat_event_count" ∈ cols ∨ "desinventar_events" ∈ cols ∨
      "gdacs_disaster_count" ∈ cols then ["total_disaster_events"] else []) ++
  (if "gdp_per_capita" ∈ cols ∨ "gdp_per_capita_imf" ∈ cols
   then ["gdp_per_capita_best"] else []) ++
  (if "gdp_growth" ∈ cols ∨ "gdp_growth_imf" ∈ cols then ["gdp_growth_best"] else []) ++
  (if "gini_index" ∈ cols ∨ "gini_wid" ∈ cols then ["gini_best"] else []) ++
  (if "mean_years_schooling" ∈ cols ∨ "years_of_schooling" ∈ cols
   then ["education_years_best"] else []) ++
  (if "population" ∈ cols
   then ["fatalities_per_million", "affected_pct", "DII", "DII_normalized"] else []) ++
  ["gdp_growth_change", "RRS", "RRS_normalized", "CRI", "CRI_normalized", "region"] ++
  (if "gdp_per_capita_best" ∈ cols ∨ "gdp_per_capita" ∈ cols then ["income_group"] else [])

/-- The output files the run manages to write, in write order.  The coverage
matrix and the unified dataset are written unconditionally; the validation
report is generated by an f-string that indexes `final["DII"]`, `final["RRS"]`
and `final["CRI"]` without an existence guard, so its write is reached only
when those columns exist. -/
def filesWritten (failed : List String) : List String :=
  let cols := derivedColumns failed
  ["coverage_matrix.csv", "unified_resilience_dataset.csv"] ++
  (if "DII" ∈ cols ∧ "RRS" ∈ cols ∧ "CRI" ∈ cols then ["validation_report.txt"] else [])

/-- Whether the run reaches its final line instead of dying on an uncaught
exception while formatting the validation report. -/
def pipelineCompletes (failed : List String) : Bool :=
  decide ("validation_report.txt" ∈ filesWritten failed)

/-- C4 evaluation at the failing input: with every source healthy all three
files are written, but when the WDI normalizer alone fails (so no `population`
column exists and the DII block is skipped), the report f-string's unguarded
`final["DII"]` lookup raises, the run dies, and only the coverage matrix and
the unified dataset are written — not the validation report. -/
theorem pipeline_dies_without_wdi :
    filesWritten [] = ["coverage_matrix.csv", "unified_resilience_dataset.csv",
                       "validation_report.txt"] ∧
    pipelineCompletes [] = true ∧
    filesWritten ["wdi"] = ["coverage_matrix.csv", "unified_resilience_dataset.csv"] ∧
    "validation_report.txt" ∉ filesWritten ["wdi"] ∧
    pipelineCompletes ["wdi"] = false := by
  refine ⟨by decide, by decide, by decide, by decide, by decide⟩

-- ============================================================================
-- Merge engine: sequential left joins on (iso3, year), filtering, sorting
-- ============================================================================

/-- A merge key: the (possibly null) iso3 code and the year. -/
abbrev MKey := Option String × Int

/-- A row of a normalized table or of the accumulating unified table: its key
and its data cells. -/
abbrev MRow := MKey × List (Option ℚ)

/-- The key of a row. -/
def rowKey (r : MRow) : MKey := r.1

/-- Pandas left merge on the key: every left row is kept; it is replicated
once per matching right row, with the right row's cells appended, and padded
with `ncols` nulls when the right table has no match. -/
def mergeLeft (ncols : Nat) (left right : List MRow) : List MRow :=
  left.flatMap fun p =>
    let ms := right.filter (fun q => rowKey q == rowKey p)
    if ms.isEmpty then [(p.1, p.2 ++ List.replicate ncols none)]
    else ms.map fun q => (p.1, p.2 ++ q.2)

/-- One iteration of the merge loop: a source with no rows or no data columns
is skipped, otherwise it is left-merged onto the accumulating table. -/
def mergeStep (acc : List MRow) (src : Nat × List MRow) : List MRow :=
  if src.2.isEmpty || src.1 == 0 then acc else mergeLeft src.1 acc src.2

/-- Comparison used by `sort_values(["iso3", "year"])`: lexicographic on the
code then the year (the post-merge sort runs after null codes are dropped, so
the placeholder for null does not matter). -/
def leKeyB (a b : MKey) : Bool :=
  let sa := a.1.getD ""
  let sb := b.1.getD ""
  if sa = sb then decide (a.2 ≤ b.2) else decide (sa < sb)

/-- Sorting the merged table by (iso3, year). -/
def sortRows (t : List MRow) : List MRow :=
  t.insertionSort (fun a b => leKeyB (rowKey a) (rowKey b) = true)

/-- Target year range bounds from the configuration block. -/
def YEAR_START : Int := 2000

/-- Upper bound of the target year range. -/
def YEAR_END : Int := 2024

/-- The post-merge stage: filter to the target year range, drop rows with a
null code, then sort by (iso3, year). -/
def postProcess (t : List MRow) : List MRow :=
  sortRows ((t.filter (fun r => decide (YEAR_START ≤ r.1.2) && decide (r.1.2 ≤ YEAR_END))).filter
    (fun r => r.1.1.isSome))

/-- The whole merge engine: fold the ordered sources onto the spine, then
post-process. -/
def unify (spine : List MRow) (sources : List (Nat × List MRow)) : List MRow :=
  postProcess (sources.foldl mergeStep spine)

/-- The key column of a table. -/
def keysOf (t : List MRow) : List MKey := t.map rowKey

/-- The duplicate count of `run_diagnostics`:
`df.duplicated(subset=["iso3","year"], keep="first").sum()`, i.e. the number
of rows beyond the first sharing a key. -/
def dupCount (t : List MRow) : Nat := (keysOf t).length - (keysOf t).dedup.length

/-- The diagnostics duplicate check: flag (emit the WARNING line) exactly when
the duplicate count is positive; the table itself is not modified. -/
def dupFlag (t : List MRow) : Bool := decide (0 < dupCount t)

/-- In a table whose keys are distinct, at most one row matches any key. -/
theorem filter_key_length_le_one {right : List MRow} (h : (keysOf right).Nodup)
    (k : MKey) : (right.filter (fun q => rowKey q == k)).length ≤ 1 := by
  induction right with
  | nil => simp
  | cons a t ih =>
    rw [keysOf, List.map_cons, List.nodup_cons] at h
    rw [List.filter_cons]
    by_cases hk : rowKey a = k
    · have hnone : t.filter (fun q => rowKey q == k) = [] := by
        refine List.filter_eq_nil_iff.mpr ?_
        intro q hq hqk
        exact h.1 (hk ▸ (beq_iff_eq.mp hqk) ▸ List.mem_map_of_mem rowKey hq)
      simp [hk, hnone]
    · have hfalse : (rowKey a == k) = false := beq_eq_false_iff_ne.mpr hk
      simp only [hfalse, Bool.false_eq_true, if_false]
      exact ih h.2

/-- A left merge against a table with distinct keys reproduces the left key
column exactly: one output row per left row. -/
theorem mergeLeft_keys (n : Nat) (left right : List MRow)
    (h : (keysOf right).Nodup) : keysOf (mergeLeft n left right) = keysOf left := by
  induction left with
  | nil => rfl
  | cons p t ih =>
    rw [mergeLeft, List.flatMap_cons, keysOf, List.map_append]
    rw [mergeLeft] at ih
    rw [keysOf, List.map_cons]
    have hblock :
        ((let ms := right.filter (fun q => rowKey q == rowKey p)
          if ms.isEmpty then [(p.1, p.2 ++ List.replicate n none)]
          else ms.map fun q => (p.1, p.2 ++ q.2)) : List MRow).map rowKey = [p.1] := by
      rcases hf : right.filter (fun q => rowKey q == rowKey p) with _ | ⟨m, ms⟩
      · simp [hf, rowKey]
      · have hlen := filter_key_length_le_one h (rowKey p)
        rw [hf] at hlen
        simp only [List.length_cons] at hlen
        have hms : ms = [] := List.eq_nil_of_length_eq_zero (by omega)
        subst hms
        simp [hf, rowKey]
    rw [hblock]
    rw [keysOf] at ih
    rw [ih]
    rfl

/-- Folding the merge loop over sources whose keys are all distinct leaves the
spine's key column unchanged. -/
theorem foldl_merge_keys (sources : List (Nat × List MRow)) (spine : List MRow)
    (h : ∀ s ∈ sources, (keysOf s.2).Nodup) :
    keysOf (sources.foldl mergeStep spine) = keysOf spine := by
  induction sources generalizing spine with
  | nil => rfl
  | cons s rest ih =>
    rw [List.foldl_cons]
    rw [ih (mergeStep spine s) (fun x hx => h x (List.mem_cons_of_mem s hx))]
    rw [mergeStep]
    split
    · rfl
    · exact mergeLeft_keys s.1 spine s.2 (h s (List.mem_cons_self s rest))

/-- Every row produced by a left merge carries the key of a left row. -/
theorem mem_mergeLeft_key {n : Nat} {left right : List MRow} {r : MRow}
    (hr : r ∈ mergeLeft n left right) : rowKey r ∈ keysOf left := by
  rw [mergeLeft, List.mem_flatMap] at hr
  obtain ⟨p, hp, hblock⟩ := hr
  have hkey : rowKey r = p.1 := by
    rcases hf : right.filter (fun q => rowKey q == rowKey p) with _ | ⟨m, ms⟩ <;>
      rw [hf] at hblock
    · simp only [List.isEmpty_nil, if_true] at hblock
      rw [List.mem_singleton] at hblock
      rw [hblock]
      rfl
    · simp only [List.isEmpty_cons, Bool.false_eq_true, if_false] at hblock
      obtain ⟨q, _, hq⟩ := List.mem_map.mp hblock
      rw [← hq]
      rfl
  rw [hkey]
  exact List.mem_map_of_mem rowKey hp

/-- Every key of the table after one merge iteration is a key of the
accumulating table. -/
theorem keys_mergeStep_subset {acc : List MRow} {s : Nat × List MRow} {k : MKey}
    (hk : k ∈ keysOf (mergeStep acc s)) : k ∈ keysOf acc := by
  rw [mergeStep] at hk
  split at hk
  · exact hk
  · rw [keysOf, List.mem_map] at hk
    obtain ⟨r, hr, hrk⟩ := hk
    exact hrk ▸ mem_mergeLeft_key hr

/-- Every key of the fully merged table is a key of the spine. -/
theorem keys_foldl_merge_subset {sources : List (Nat × List MRow)}
    {spine : List MRow} {k : MKey} (hk : k ∈ keysOf (sources.foldl mergeStep spine)) :
    k ∈ keysOf spine := by
  induction sources generalizing spine with
  | nil => exact hk
  | cons s rest ih =>
    rw [List.foldl_cons] at hk
    exact keys_mergeStep_subset (ih hk)

/-- Membership in the post-processed table: the row was in the merged table,
its year is in the target range, and its code is non-null. -/
theorem mem_postProcess {t : List MRow} {r : MRow} (hr : r ∈ postProcess t) :
    r ∈ t ∧ (YEAR_START ≤ r.1.2 ∧ r.1.2 ≤ YEAR_END) ∧ r.1.1.isSome := by
  rw [postProcess, sortRows] at hr
  rw [(List.perm_insertionSort _ _).mem_iff] at hr
  rw [List.mem_filter] at hr
  obtain ⟨hr1, hsome⟩ := hr
  rw [List.mem_filter] at hr1
  obtain ⟨hmem, hyear⟩ := hr1
  rw [Bool.and_eq_true, decide_eq_true_iff, decide_eq_true_iff] at hyear
  exact ⟨hmem, hyear, hsome⟩

/-- The key column survives post-processing with its distinctness intact. -/
theorem postProcess_keys_nodup {t : List MRow} (h : (keysOf t).Nodup) :
    (keysOf (postProcess t)).Nodup := by
  have h1 : (keysOf (t.filter
      (fun r => decide (YEAR_START ≤ r.1.2) && decide (r.1.2 ≤ YEAR_END)))).Nodup :=
    h.sublist ((List.filter_sublist t).map rowKey)
  have h2 : (keysOf ((t.filter
      (fun r => decide (YEAR_START ≤ r.1.2) && decide (r.1.2 ≤ YEAR_END))).filter
      (fun r => r.1.1.isSome))).Nodup :=
    h1.sublist ((List.filter_sublist _).map rowKey)
  rw [postProcess, keysOf, sortRows]
  rw [List.Perm.nodup_iff ((List.perm_insertionSort _ _).map rowKey)]
  exact h2

/-- The diagnostics duplicate flag is exactly the failure of key
distinctness, and the flagged table is reported, not modified. -/
theorem dupFlag_iff (t : List MRow) : dupFlag t = true ↔ ¬ (keysOf t).Nodup := by
  rw [dupFlag, decide_eq_true_iff, dupCount]
  have hsub : (keysOf t).dedup.Sublist (keysOf t) := (keysOf t).dedup_sublist
  have hle : (keysOf t).dedup.length ≤ (keysOf t).length := hsub.length_le
  constructor
  · intro hlt hnodup
    rw [List.Nodup.dedup hnodup] at hlt
    omega
  · intro hnodup
    rcases Nat.lt_or_ge (keysOf t).dedup.length (keysOf t).length with hlt | hge
    · omega
    · exfalso
      have heq : (keysOf t).dedup = keysOf t := hsub.eq_of_length (by omega)
      exact hnodup (heq ▸ (keysOf t).nodup_dedup)

/-- C3 counterexample: the merge stage does not guarantee key uniqueness for
every collection of normalized inputs — when a source table itself carries a
duplicated (iso3, year) key, the left join replicates the spine row, and the
finished table holds the key ("AAA", 2010) twice (the duplicate check that
would flag this lives in the separate diagnostics script, not in the merge
stage of the build script). -/
theorem merge_duplicate_key_cex :
    (keysOf (unify [((some "AAA", 2010), [])]
      [(1, [((some "AAA", 2010), [some 1]), ((some "AAA", 2010), [some 2])])])).count
      (some "AAA", 2010) = 2 ∧
    dupFlag (unify [((some "AAA", 2010), [])]
      [(1, [((some "AAA", 2010), [some 1]), ((some "AAA", 2010), [some 2])])]) = true := by
  constructor <;> decide

/-- C3 amended: provided the spine and every merged source table have distinct
(iso3, year) keys, the merge engine's output (joins, year filter, null-code
filter, sort) has each key at most once; the diagnostics duplicate check then
reports no duplicates, and in general it flags a table exactly when its keys
are not distinct, without ever modifying the table it checks. -/
theorem merge_key_uniqueness (spine : List MRow) (sources : List (Nat × List MRow))
    (hsp : (keysOf spine).Nodup) (hs : ∀ s ∈ sources, (keysOf s.2).Nodup) :
    (keysOf (unify spine sources)).Nodup ∧ dupFlag (unify spine sources) = false ∧
    (∀ t : List MRow, dupFlag t = true ↔ ¬ (keysOf t).Nodup) := by
  have hkeys : keysOf (sources.foldl mergeStep spine) = keysOf spine :=
    foldl_merge_keys sources spine hs
  have hnd : (keysOf (unify spine sources)).Nodup :=
    postProcess_keys_nodup (hkeys ▸ hsp)
  refine ⟨hnd, ?_, dupFlag_iff⟩
  cases h : dupFlag (unify spine sources) with
  | false => rfl
  | true => exact absurd hnd ((dupFlag_iff _).mp h)

/-- Witness for C3 amended on the spec's merge scenario (spine AAA/BBB, one
source providing a value for AAA). -/
theorem merge_key_uniqueness_w :
    (keysOf (unify [((some "AAA", 2010), []), ((some "BBB", 2010), [])]
      [(1, [((some "AAA", 2010), [some 100])])])).Nodup ∧
    dupFlag (unify [((some "AAA", 2010), []), ((some "BBB", 2010), [])]
      [(1, [((some "AAA", 2010), [some 100])])]) = false :=
  ⟨(merge_key_uniqueness _ _ (by decide) (by decide)).1,
   (merge_key_uniqueness _ _ (by decide) (by decide)).2.1⟩

-- ============================================================================
-- Saved-table invariants on year and country code (C5)
-- ============================================================================

/-- A raw spine table with free-text codes, pushed through
`standardize_iso3` into merge-ready rows. -/
def normalizeSpine (raw : List (String × Int)) : List MRow :=
  raw.map (fun p => ((standardizeIso3 p.1, p.2), []))

/-- Whether a string consists of exactly 3 uppercase ASCII letters. -/
def isThreeUpperAlpha (s : String) : Bool :=
  s.data.length == 3 && s.data.all (fun c => c.isUpper)

/-- C5 counterexample: nothing in the pipeline enforces the 3-uppercase-letter
shape — a malformed spine code "ab12" is merely uppercased to "AB12" and
survives all filters into the saved table, and "AB12" is neither 3 uppercase
letters nor one of the enumerated territorial codes. -/
theorem malformed_code_survives_cex :
    unify (normalizeSpine [("ab12", 2010)]) [] = [((some "AB12", 2010), [])] ∧
    isThreeUpperAlpha "AB12" = false ∧ "AB12" ∉ territorialCodes := by
  refine ⟨by decide, by decide, by decide⟩

/-- C5 amended: every saved row has `2000 ≤ year ≤ 2024` and a non-null
country code that is the trimmed, uppercased form of a raw spine code and is
not a sentinel placeholder; the 3-letter shape itself is not enforced
anywhere. -/
theorem saved_row_key_invariant (raw : List (String × Int))
    (sources : List (Nat × List MRow)) (r : MRow)
    (hr : r ∈ unify (normalizeSpine raw) sources) :
    ((2000:Int) ≤ r.1.2 ∧ r.1.2 ≤ 2024) ∧ r.1.1.isSome = true ∧
    (∀ s : String, r.1.1 = some s →
      s ∉ invalidValues ∧ ∃ p ∈ raw, s = strUpper (strTrim p.1)) := by
  obtain ⟨hmem, hyear, hsome⟩ := mem_postProcess hr
  refine ⟨hyear, hsome, ?_⟩
  intro s hs
  have hk : rowKey r ∈ keysOf (sources.foldl mergeStep (normalizeSpine raw)) :=
    List.mem_map_of_mem rowKey hmem
  have hk2 : rowKey r ∈ keysOf (normalizeSpine raw) := keys_foldl_merge_subset hk
  rw [keysOf, normalizeSpine, List.map_map] at hk2
  rw [List.mem_map] at hk2
  obtain ⟨p, hp, hpk⟩ := hk2
  have h1 : standardizeIso3 p.1 = some s := by
    have hfst := congrArg Prod.fst hpk
    simp only [Function.comp, rowKey] at hfst
    rw [hfst, hs]
  simp only [standardizeIso3] at h1
  by_cases hmem2 : strUpper (strTrim p.1) ∈ invalidValues
  · rw [if_pos hmem2] at h1
    exact absurd h1 (by simp)
  · rw [if_neg hmem2] at h1
    have hsu : s = strUpper (strTrim p.1) := (Option.some.inj h1).symm
    exact ⟨hsu ▸ hmem2, ⟨p, hp, hsu⟩⟩

/-- Witness for C5 amended: the single saved row of a one-row spine ("usa",
2010) satisfies the invariant, its code being "USA". -/
theorem saved_row_key_invariant_w :
    ((2000:Int) ≤ 2010 ∧ (2010:Int) ≤ 2024) ∧ (some "USA").isSome = true ∧
    (∀ s : String, some "USA" = some s →
      s ∉ invalidValues ∧ ∃ p ∈ [("usa", (2010:Int))], s = strUpper (strTrim p.1)) :=
  saved_row_key_invariant [("usa", 2010)] [] ((some "USA", 2010), []) (by decide)

-- ============================================================================
-- Properties of `normalize_0_1` (C6, C10)
-- ============================================================================

/-- A fold of `min` lands on its seed or on a list element. -/
theorem foldl_min_mem (vs : List ℚ) (v : ℚ) : vs.foldl min v ∈ v :: vs := by
  induction vs generalizing v with
  | nil => exact List.mem_singleton.mpr rfl
  | cons a t ih =>
    rw [List.foldl_cons]
    rcases List.mem_cons.mp (ih (min v a)) with h1 | h2
    · rcases min_choice v a with h3 | h3
      · rw [h1, h3]
        exact List.mem_cons_self v (a :: t)
      · rw [h1, h3]
        exact List.mem_cons_of_mem v (List.mem_cons_self a t)
    · exact List.mem_cons_of_mem v (List.mem_cons_of_mem a h2)

/-- A fold of `min` is a lower bound of its seed and all list elements. -/
theorem foldl_min_le (vs : List ℚ) : ∀ (v x : ℚ), x ∈ v :: vs → vs.foldl min v ≤ x := by
  induction vs with
  | nil =>
    intro v x hx
    rw [List.mem_singleton] at hx
    rw [hx]
    exact le_refl v
  | cons a t ih =>
    intro v x hx
    rw [List.foldl_cons]
    rcases List.mem_cons.mp hx with h1 | h2
    · refine le_trans (ih (min v a) (min v a) (List.mem_cons_self _ _)) ?_
      rw [h1]
      exact min_le_left v a
    · rcases List.mem_cons.mp h2 with h3 | h4
      · refine le_trans (ih (min v a) (min v a) (List.mem_cons_self _ _)) ?_
        rw [h3]
        exact min_le_right v a
      · exact ih (min v a) x (List.mem_cons_of_mem _ h4)

/-- A fold of `max` lands on its seed or on a list element. -/
theorem foldl_max_mem (vs : List ℚ) (v : ℚ) : vs.foldl max v ∈ v :: vs := by
  induction vs generalizing v with
  | nil => exact List.mem_singleton.mpr rfl
  | cons a t ih =>
    rw [List.foldl_cons]
    rcases List.mem_cons.mp (ih (max v a)) with h1 | h2
    · rcases max_choice v a with h3 | h3
      · rw [h1, h3]
        exact List.mem_cons_self v (a :: t)
      · rw [h1, h3]
        exact List.mem_cons_of_mem v (List.mem_cons_self a t)
    · exact List.mem_cons_of_mem v (List.mem_cons_of_mem a h2)

/-- A fold of `max` is an upper bound of its seed and all list elements. -/
theorem le_foldl_max (vs : List ℚ) : ∀ (v x : ℚ), x ∈ v :: vs → x ≤ vs.foldl max v := by
  induction vs with
  | nil =>
    intro v x hx
    rw [List.mem_singleton] at hx
    rw [hx]
    exact le_refl v
  | cons a t ih =>
    intro v x hx
    rw [List.foldl_cons]
    rcases List.mem_cons.mp hx with h1 | h2
    · refine le_trans ?_ (ih (max v a) (max v a) (List.mem_cons_self _ _))
      rw [h1]
      exact le_max_left v a
    · rcases List.mem_cons.mp h2 with h3 | h4
      · refine le_trans ?_ (ih (max v a) (max v a) (List.mem_cons_self _ _))
        rw [h3]
        exact le_max_right v a
      · exact ih (max v a) x (List.mem_cons_of_mem _ h4)

/-- The column minimum is attained on a nonempty column. -/
theorem listMin_mem (l : List ℚ) (h : l ≠ []) : listMin l ∈ l := by
  cases l with
  | nil => exact absurd rfl h
  | cons v vs => exact foldl_min_mem vs v

/-- The column minimum bounds every column entry from below. -/
theorem listMin_le (l : List ℚ) (x : ℚ) (hx : x ∈ l) : listMin l ≤ x := by
  cases l with
  | nil => exact absurd hx (List.not_mem_nil x)
  | cons v vs => exact foldl_min_le vs v x hx

/-- The column maximum is attained on a nonempty column. -/
theorem listMax_mem (l : List ℚ) (h : l ≠ []) : listMax l ∈ l := by
  cases l with
  | nil => exact absurd rfl h
  | cons v vs => exact foldl_max_mem vs v

/-- The column maximum bounds every column entry from above. -/
theorem le_listMax (l : List ℚ) (x : ℚ) (hx : x ∈ l) : x ≤ listMax l := by
  cases l with
  | nil => exact absurd hx (List.not_mem_nil x)
  | cons v vs => exact le_foldl_max vs v x hx

/-- On a nonempty column the minimum is at most the maximum. -/
theorem listMin_le_listMax (l : List ℚ) (h : l ≠ []) : listMin l ≤ listMax l :=
  listMin_le l (listMax l) (listMax_mem l h)

/-- When every entry of a nonempty column equals `c`, so does its minimum. -/
theorem listMin_all_eq {l : List ℚ} {c : ℚ} (hne : l ≠ []) (hall : ∀ x ∈ l, x = c) :
    listMin l = c := hall _ (listMin_mem l hne)

/-- When every entry of a nonempty column equals `c`, so does its maximum. -/
theorem listMax_all_eq {l : List ℚ} {c : ℚ} (hne : l ≠ []) (hall : ∀ x ∈ l, x = c) :
    listMax l = c := hall _ (listMax_mem l hne)

/-- Folding `min` commutes with mapping a monotone function. -/
theorem foldl_min_map (f : ℚ → ℚ) (hf : Monotone f) (vs : List ℚ) :
    ∀ v, (vs.map f).foldl min (f v) = f (vs.foldl min v) := by
  induction vs with
  | nil => intro v; rfl
  | cons a t ih =>
    intro v
    rw [List.map_cons, List.foldl_cons, List.foldl_cons, ← hf.map_min]
    exact ih (min v a)

/-- Folding `max` commutes with mapping a monotone function. -/
theorem foldl_max_map (f : ℚ → ℚ) (hf : Monotone f) (vs : List ℚ) :
    ∀ v, (vs.map f).foldl max (f v) = f (vs.foldl max v) := by
  induction vs with
  | nil => intro v; rfl
  | cons a t ih =>
    intro v
    rw [List.map_cons, List.foldl_cons, List.foldl_cons, ← hf.map_max]
    exact ih (max v a)

/-- The minimum of a column mapped through a monotone function. -/
theorem listMin_map (f : ℚ → ℚ) (hf : Monotone f) (l : List ℚ) (h : l ≠ []) :
    listMin (l.map f) = f (listMin l) := by
  cases l with
  | nil => exact absurd rfl h
  | cons v vs =>
    rw [List.map_cons, listMin, listMin]
    exact foldl_min_map f hf vs v

/-- The maximum of a column mapped through a monotone function. -/
theorem listMax_map (f : ℚ → ℚ) (hf : Monotone f) (l : List ℚ) (h : l ≠ []) :
    listMax (l.map f) = f (listMax l) := by
  cases l with
  | nil => exact absurd rfl h
  | cons v vs =>
    rw [List.map_cons, listMax, listMax]
    exact foldl_max_map f hf vs v

/-- The non-null cells of an all-null column form the empty list. -/
theorem filterMap_id_map_const_none (l : List (Option ℚ)) :
    (l.map (fun _ => (none : Option ℚ))).filterMap id = [] := by
  induction l with
  | nil => rfl
  | cons a t ih => simp

/-- The non-null cells of a constant non-null column. -/
theorem filterMap_id_map_const_some (l : List (Option ℚ)) (c : ℚ) :
    (l.map (fun _ => some c)).filterMap id = l.map (fun _ => c) := by
  induction l with
  | nil => rfl
  | cons a t ih => simp

/-- Extracting the non-null cells commutes with an elementwise map. -/
theorem filterMap_id_map_optionMap (l : List (Option ℚ)) (f : ℚ → ℚ) :
    (l.map (Option.map f)).filterMap id = (l.filterMap id).map f := by
  induction l with
  | nil => rfl
  | cons a t ih => cases a <;> simpa using ih

/-- Renormalizing any already-normalized (×100) column reproduces it: in the
all-null case both passes yield all nulls, in the flat case both passes yield
the constant 50, and otherwise the second pass rescales by the attained
minimum 0 and maximum 100, which is the identity. -/
theorem norm100_idem (l : List (Option ℚ)) : norm100 (norm100 l) = norm100 l := by
  by_cases h0 : l.filterMap id = []
  · have e1 : norm100 l = l.map (fun _ => none) := by
      rw [norm100, normalize_0_1, if_pos h0, List.map_map]
      rfl
    rw [e1]
    have h0b : ((l.map (fun _ => (none : Option ℚ))).filterMap id) = [] :=
      filterMap_id_map_const_none l
    rw [norm100, normalize_0_1, if_pos h0b, List.map_map, List.map_map]
    rfl
  · by_cases h1 : listMax (l.filterMap id) = listMin (l.filterMap id)
    · have hlne : l ≠ [] := by
        intro he
        rw [he] at h0
        exact h0 rfl
      have half_to_fifty : ∀ a : Option ℚ,
          Option.map (fun x => x * 100) (some ((1:ℚ)/2)) = some (50:ℚ) := by
        intro _
        rw [Option.map_some']
        norm_num
      have e1 : norm100 l = l.map (fun _ => some 50) := by
        rw [norm100, normalize_0_1, if_neg h0, if_pos h1, List.map_map]
        refine List.map_congr_left ?_
        intro a _
        exact half_to_fifty a
      rw [e1]
      have hmapne : l.map (fun _ => (50:ℚ)) ≠ [] := by
        intro he
        exact hlne (List.map_eq_nil_iff.mp he)
      have h0b : (l.map (fun _ => some (50:ℚ))).filterMap id = l.map (fun _ => (50:ℚ)) :=
        filterMap_id_map_const_some l 50
      have hall : ∀ x ∈ l.map (fun _ => (50:ℚ)), x = 50 := by
        intro x hx
        obtain ⟨y, _, hy⟩ := List.mem_map.mp hx
        exact hy.symm
      have h0c : ¬ ((l.map (fun _ => some (50:ℚ))).filterMap id = []) := by
        rw [h0b]
        exact hmapne
      have h1b : listMax ((l.map (fun _ => some (50:ℚ))).filterMap id) =
          listMin ((l.map (fun _ => some (50:ℚ))).filterMap id) := by
        rw [h0b, listMax_all_eq hmapne hall, listMin_all_eq hmapne hall]
      rw [norm100, normalize_0_1, if_neg h0c, if_pos h1b, List.map_map, List.map_map]
      refine List.map_congr_left ?_
      intro a _
      exact half_to_fifty a
    · have hlt : listMin (l.filterMap id) < listMax (l.filterMap id) :=
        lt_of_le_of_ne (listMin_le_listMax _ h0) (fun he => h1 he.symm)
      have hdpos : (0:ℚ) < listMax (l.filterMap id) - listMin (l.filterMap id) :=
        sub_pos.mpr hlt
      have hfmono : Monotone (fun x =>
          (x - listMin (l.filterMap id)) /
            (listMax (l.filterMap id) - listMin (l.filterMap id)) * 100) := by
        intro a b hab
        dsimp only
        refine mul_le_mul_of_nonneg_right ?_ (by norm_num)
        exact (div_le_div_iff_of_pos_right hdpos).mpr (sub_le_sub_right hab _)
      have hfmn : (fun x =>
          (x - listMin (l.filterMap id)) /
            (listMax (l.filterMap id) - listMin (l.filterMap id)) * 100)
          (listMin (l.filterMap id)) = 0 := by
        dsimp only
        rw [sub_self, zero_div, zero_mul]
      have hfmx : (fun x =>
          (x - listMin (l.filterMap id)) /
            (listMax (l.filterMap id) - listMin (l.filterMap id)) * 100)
          (listMax (l.filterMap id)) = 100 := by
        dsimp only
        rw [div_self (ne_of_gt hdpos), one_mul]
      have e1 : norm100 l = l.map (Option.map (fun x =>
          (x - listMin (l.filterMap id)) /
            (listMax (l.filterMap id) - listMin (l.filterMap id)) * 100)) := by
        rw [norm100, normalize_0_1, if_neg h0, if_neg h1]
        simp only [Bool.false_eq_true, if_false, List.map_map]
        refine List.map_congr_left ?_
        intro a _
        cases a <;> rfl
      have hvals2 : (l.map (Option.map (fun x =>
          (x - listMin (l.filterMap id)) /
            (listMax (l.filterMap id) - listMin (l.filterMap id)) * 100))).filterMap id =
          (l.filterMap id).map (fun x =>
          (x - listMin (l.filterMap id)) /
            (listMax (l.filterMap id) - listMin (l.filterMap id)) * 100) :=
        filterMap_id_map_optionMap l _
      have h0c : ¬ ((l.map (Option.map (fun x =>
          (x - listMin (l.filterMap id)) /
            (listMax (l.filterMap id) - listMin (l.filterMap id)) * 100))).filterMap id = []) := by
        rw [hvals2]
        intro he
        exact h0 (List.map_eq_nil_iff.mp he)
      have hminf : listMin ((l.map (Option.map (fun x =>
          (x - listMin (l.filterMap id)) /
            (listMax (l.filterMap id) - listMin (l.filterMap id)) * 100))).filterMap id) = 0 := by
        rw [hvals2, listMin_map _ hfmono _ h0]
        exact hfmn
      have hmaxf : listMax ((l.map (Option.map (fun x =>
          (x - listMin (l.filterMap id)) /
            (listMax (l.filterMap id) - listMin (l.filterMap id)) * 100))).filterMap id) = 100 := by
        rw [hvals2, listMax_map _ hfmono _ h0]
        exact hfmx
      have h1c : ¬ (listMax ((l.map (Option.map (fun x =>
          (x - listMin (l.filterMap id)) /
            (listMax (l.filterMap id) - listMin (l.filterMap id)) * 100))).filterMap id) =
          listMin ((l.map (Option.map (fun x =>
          (x - listMin (l.filterMap id)) /
            (listMax (l.filterMap id) - listMin (l.filterMap id)) * 100))).filterMap id)) := by
        rw [hminf, hmaxf]
        norm_num
      rw [e1, norm100, normalize_0_1, if_neg h0c, if_neg h1c]
      simp only [Bool.false_eq_true, if_false, hminf, hmaxf, List.map_map]
      refine List.map_congr_left ?_
      intro a _
      cases a with
      | none => rfl
      | some x =>
        show some ((((x - listMin (l.filterMap id)) /
            (listMax (l.filterMap id) - listMin (l.filterMap id)) * 100) - 0) /
            ((100:ℚ) - 0) * 100) = _
        rw [sub_zero, sub_zero, div_mul_cancel₀ _ (by norm_num : (100:ℚ) ≠ 0)]
        rfl

/-- C6: min-max normalization (×100) is idempotent — for a fully-populated
column, the [0,100]-scaled output of the normalization formula, renormalized a
second time with the same formula, is reproduced exactly, with the flat
(all-values-equal) case consistently yielding 50 on both passes. -/
theorem minmax_normalization_idempotent (l : List ℚ) :
    norm100 (norm100 (l.map some)) = norm100 (l.map some) :=
  norm100_idem (l.map some)

/-- C10: when a column has at least one non-null value and all its non-null
values are equal, `normalize_0_1` returns exactly 0.5 at every index, null
input rows included, so the ×100 normalized column is 50 everywhere. -/
theorem flat_column_normalizes_to_half (l : List (Option ℚ)) (c : ℚ)
    (hne : l.filterMap id ≠ []) (hall : ∀ x ∈ l.filterMap id, x = c) :
    normalize_0_1 l false = l.map (fun _ => some (1/2)) ∧
    norm100 l = l.map (fun _ => some 50) := by
  have h1 : listMax (l.filterMap id) = listMin (l.filterMap id) := by
    rw [listMax_all_eq hne hall, listMin_all_eq hne hall]
  have e1 : normalize_0_1 l false = l.map (fun _ => some (1/2)) := by
    rw [normalize_0_1, if_neg hne, if_pos h1]
  refine ⟨e1, ?_⟩
  rw [norm100, e1, List.map_map]
  refine List.map_congr_left ?_
  intro a _
  show Option.map (fun x => x * 100) (some ((1:ℚ)/2)) = some (50:ℚ)
  rw [Option.map_some']
  norm_num

/-- Witness for C10 on the column [2, null, 2]: both non-null values equal, so
the normalized column is 0.5 (and 50 after scaling) at every index, the null
row included. -/
theorem flat_column_normalizes_to_half_w :
    normalize_0_1 [some 2, none, some 2] false =
      [some 2, none, some 2].map (fun _ => some ((1:ℚ)/2)) ∧
    norm100 [some 2, none, some 2] = [some 2, none, some 2].map (fun _ => some (50:ℚ)) :=
  flat_column_normalizes_to_half [some 2, none, some 2] 2 (by decide) (by decide)
